/-
Verification of the vastproxy core against its specification.

Shallow embedding of the Go sources:
  - proxy/balancer.go       : Balancer, SetBackends, Pick, PickByID
  - proxy reverseproxy      : the handler body of NewReverseProxy (selection,
                              header rewriting, 502 error path)
  - backend lifecycle       : Backend state, EnsureSSH, CheckHealth,
                              tryUpgradeToDirect, StartHealthLoop tick, Close
  - vast/watcher.go         : poll reconciliation
  - backend/ssh.go          : NewSSHTunnel endpoint selection
  - backend/gpu.go          : ParseNvidiaSmi

Go machine integers are modelled as Nat/Int with explicit wraparound where
the code can overflow (the balancer's uint64 round-robin counter).  Times
are Nat seconds.  float64 values produced by ParseFloat are modelled as
exact rationals, which coincides with the code on the integer-valued
nvidia-smi outputs the claims exercise.
-/
import Mathlib

namespace VastProxy

/-! ## Small string helpers shared by several components -/

/-- Characters Go's strings.TrimSpace / unicode.IsSpace strips, restricted to
the ASCII range that all inputs in this development use. -/
def isGoSpace (c : Char) : Bool :=
  c = ' ' || c = '\t' || c = '\n' || c = '\r' || c = '\x0b' || c = '\x0c'

/-- strings.TrimSpace on a character list. -/
def trimChars (cs : List Char) : List Char :=
  ((cs.dropWhile isGoSpace).reverse.dropWhile isGoSpace).reverse

/-- strings.TrimSpace. -/
def goTrimSpace (s : String) : String :=
  String.mk (trimChars s.data)

/-- Value of a digit list, most significant first (the accumulator loop used
by Go's strconv routines). -/
def digitsToNat (cs : List Char) : Nat :=
  cs.foldl (fun a c => a * 10 + (c.toNat - 48)) 0

/-- strconv.Atoi: optional sign followed by at least one digit.
(Overflow of int64 is not modelled; no claim exercises it.) -/
def atoi? (s : String) : Option Int :=
  let cs := s.data
  let p : Bool × List Char :=
    match cs with
    | '-' :: r => (true, r)
    | '+' :: r => (false, r)
    | _ => (false, cs)
  if p.2 ≠ [] ∧ p.2.all (·.isDigit) then
    some (if p.1 then -(digitsToNat p.2 : Int) else (digitsToNat p.2 : Int))
  else none

/-- strconv.Itoa. -/
def itoa (n : Int) : String := toString n

/-! ## proxy/balancer.go -/

/-- The view of a backend.Backend that the balancer and the dispatcher read:
its instance id, the atomic healthy flag, and the bearer token.
(`IsHealthy` reads the flag, `Token` reads Instance.JupyterToken.) -/
structure BackendM where
  id : Int
  healthy : Bool
  token : String
  deriving DecidableEq, Repr

/-- Balancer (balancer.go): sorted backend list plus the monotonic uint64
round-robin counter.  The global active-request counter is independent of
the claims settled here and omitted. -/
structure Balancer where
  backends : List BackendM
  counter : Nat
  deriving DecidableEq, Repr

/-- NewBalancer. -/
def NewBalancer : Balancer := { backends := [], counter := 0 }

/-- The modulus of Go's atomic.Uint64, 2^64. -/
def UINT64MOD : Nat := 18446744073709551616

/-- Insertion step of the ascending-by-id sort that SetBackends performs
(sort.Slice with less = id <). -/
def insertById (x : BackendM) : List BackendM → List BackendM
  | [] => [x]
  | y :: ys => if x.id < y.id then x :: y :: ys else y :: insertById x ys

/-- The ascending-by-id sort performed by SetBackends. -/
def sortById : List BackendM → List BackendM
  | [] => []
  | x :: xs => insertById x (sortById xs)

/-- SetBackends: replaces the list, sorted ascending by instance id. -/
def SetBackends (b : Balancer) (bs : List BackendM) : Balancer :=
  { b with backends := sortById bs }

/-- Pick (balancer.go:43-71): round-robin over the healthy snapshot.
Returns none for the ErrNoBackends paths.  The counter arithmetic mirrors
`idx := counter.Add(1) - 1` on uint64. -/
def Pick (b : Balancer) : Option BackendM × Balancer :=
  if b.backends.length = 0 then (none, b)
  else
    let healthy := b.backends.filter (fun be => be.healthy)
    if h : healthy.length = 0 then (none, b)
    else
      let newC := (b.counter + 1) % UINT64MOD
      let idx := (newC + (UINT64MOD - 1)) % UINT64MOD
      (some (healthy.get ⟨idx % healthy.length, Nat.mod_lt _ (Nat.pos_of_ne_zero h)⟩),
       { b with counter := newC })

/-- PickByID (balancer.go:75-84): first backend with the id that is healthy. -/
def PickByID (b : Balancer) (id : Int) : Option BackendM :=
  b.backends.find? (fun be => be.id = id && be.healthy)

/-- Runs Pick n times, collecting the picked instance ids. -/
def pickN : Nat → Balancer → List (Option Int) × Balancer
  | 0, b => ([], b)
  | n + 1, b =>
    let r := Pick b
    let rest := pickN n r.2
    (r.1.map (fun be => be.id) :: rest.1, rest.2)

/-- The balancer of seed scenario S1: a fresh balancer given three healthy
backends with ids 3, 1, 2 in that order. -/
def balS1 : Balancer :=
  SetBackends NewBalancer [⟨3, true, "t3"⟩, ⟨1, true, "t1"⟩, ⟨2, true, "t2"⟩]

/-- C3: from a fresh balancer with healthy backends registered as ids 3, 1, 2,
the list is installed sorted ascending by id, and nine consecutive picks
return ids 1,2,3,1,2,3,1,2,3 — each id exactly three times, the first three
being 1, 2, 3 in order. -/
theorem C3_round_robin_fairness :
    balS1.backends.map (fun be => be.id) = [1, 2, 3] ∧
    (pickN 9 balS1).1 =
      [some 1, some 2, some 3, some 1, some 2, some 3, some 1, some 2, some 3] ∧
    (pickN 9 balS1).1.count (some 1) = 3 ∧
    (pickN 9 balS1).1.count (some 2) = 3 ∧
    (pickN 9 balS1).1.count (some 3) = 3 ∧
    (pickN 9 balS1).1.take 3 = [some 1, some 2, some 3] := by
  refine ⟨by decide, by decide, by decide, by decide, by decide, by decide⟩

/-- C10: a Pick call that fails with the no-backends error returns the
balancer unchanged — in particular the round-robin counter is not
incremented on either failure path. -/
theorem C10_failed_pick_frame (b : Balancer) (h : (Pick b).1 = none) :
    (Pick b).2 = b := by
  unfold Pick at *
  by_cases h0 : b.backends.length = 0
  · simp [h0]
  · simp only [h0, if_false] at *
    split at h
    · split
      · rfl
      · omega
    · simp at h

/-- Witness for C10 at a concrete balancer whose only backend is unhealthy. -/
theorem C10_failed_pick_frame_witness :
    (Pick { backends := [⟨1, false, ""⟩], counter := 5 }).1 = none ∧
    (Pick { backends := [⟨1, false, ""⟩], counter := 5 }).2 =
      { backends := [⟨1, false, ""⟩], counter := 5 } :=
  ⟨by decide, C10_failed_pick_frame _ (by decide)⟩

/-! ## Reverse proxy dispatcher (the handler body of NewReverseProxy) -/

/-- HTTP headers, as the ordered key/value list the handler reads and
rewrites.  All accesses in the embedded code use fixed already-canonical
keys, so plain string equality models Go's canonicalised header map. -/
abbrev Headers : Type := List (String × String)

/-- http.Header.Get: first value for the key, "" when absent. -/
def headerGet (hs : Headers) (k : String) : String :=
  match List.find? (fun p => p.1 = k) hs with
  | some p => p.2
  | none => ""

/-- http.Header.Del. -/
def headerDel (hs : Headers) (k : String) : Headers :=
  List.filter (fun p => p.1 ≠ k) hs

/-- http.Header.Set: replaces all values for the key. -/
def headerSet (hs : Headers) (k v : String) : Headers :=
  (k, v) :: headerDel hs k

/-- The proxy-internal sticky-routing header (reverseproxy StickyHeader). -/
def StickyHeader : String := "X-VastProxy-Instance"

/-- Backend selection of the handler (reverseproxy lines 57-79): if the
sticky header is present and parses as an integer, try PickByID; a miss
(or an absent/unparseable header) falls through to round-robin Pick.
The sticky path does not touch the round-robin counter. -/
def selectBackend (bal : Balancer) (stickyVal : String) : Option BackendM × Balancer :=
  let viaSticky : Option BackendM :=
    if stickyVal ≠ "" then
      match atoi? stickyVal with
      | some id => PickByID bal id
      | none => none
    else none
  match viaSticky with
  | some be => (some be, bal)
  | none => Pick bal

/-- Director header rewrite (reverseproxy lines 112-119): drop client
Authorization, install the backend bearer token when present, and delete
the sticky header so it does not travel upstream. -/
def directorHeaders (reqHeaders : Headers) (tok : String) : Headers :=
  let h1 := headerDel reqHeaders "Authorization"
  let h2 := if tok ≠ "" then headerSet h1 "Authorization" ("Bearer " ++ tok) else h1
  headerDel h2 StickyHeader

/-- ModifyResponse (reverseproxy lines 121-125): stamp the served instance
id into the response's sticky header. -/
def modifyResponseHeaders (respHeaders : Headers) (beId : Int) : Headers :=
  headerSet respHeaders StickyHeader (itoa beId)

/-- A client-visible HTTP response of the handler. -/
structure HttpResponse where
  status : Nat
  contentType : String
  body : String
  respHeaders : Headers
  deriving DecidableEq, Repr

/-- What the relay to the chosen backend does: either a backend response
(status/headers/body) or an upstream failure (connection error, hijack,
etc.) that lands in the ErrorHandler. -/
inductive UpstreamOutcome where
  | ok (status : Nat) (hs : Headers) (body : String)
  | failure
  deriving DecidableEq, Repr

/-- The 503 body written when no backend is available (reverseproxy line 76). -/
def noBackendsBody : String :=
  "\x7b\"error\":\x7b\"message\":\"no backends available\",\"type\":\"server_error\"\x7d\x7d"

/-- The 502 body written by the ErrorHandler (reverseproxy line 131). -/
def backendErrorBody : String :=
  "\x7b\"error\":\x7b\"message\":\"backend error\",\"type\":\"server_error\"\x7d\x7d"

/-- One pass of the handler body of NewReverseProxy: select a backend
(503 when none), relay, and either stamp the sticky response header
(ModifyResponse) or write 502 with the JSON error body (ErrorHandler).
Returns the response together with the balancer state after the request;
acquire/release pair up and cancel, and no code path in the handler writes
any backend's healthy flag, so the backend list is carried through
unchanged from selection. -/
def handleRequest (bal : Balancer) (stickyVal : String) (outcome : UpstreamOutcome) :
    HttpResponse × Balancer :=
  match selectBackend bal stickyVal with
  | (none, bal1) =>
    ({ status := 503, contentType := "application/json",
       body := noBackendsBody, respHeaders := [] }, bal1)
  | (some be, bal1) =>
    match outcome with
    | .ok st hs body =>
      ({ status := st, contentType := headerGet hs "Content-Type", body := body,
         respHeaders := modifyResponseHeaders hs be.id }, bal1)
    | .failure =>
      ({ status := 502, contentType := "application/json",
         body := backendErrorBody, respHeaders := [] }, bal1)

/-- The balancer of seed scenario S2: healthy backends with ids 1, 2, 3. -/
def balS2 : Balancer :=
  { backends := [⟨1, true, "t1"⟩, ⟨2, true, "t2"⟩, ⟨3, true, "t3"⟩], counter := 0 }

/-- C5: with healthy backends 1,2,3 — a request pinned with sticky header "2"
is dispatched to backend 2 and the response sticky header is "2"; a request
pinned to the unknown id 999 falls back to round-robin (backend 1 here) and
the response header carries the actually-served id; and the Director deletes
the sticky request header before forwarding upstream. -/
theorem C5_sticky_pin_and_fallback :
    (selectBackend balS2 "2").1 = some ⟨2, true, "t2"⟩ ∧
    (handleRequest balS2 "2" (.ok 200 [] "")).1.respHeaders =
      [(StickyHeader, "2")] ∧
    (selectBackend balS2 "999").1 = some ⟨1, true, "t1"⟩ ∧
    (handleRequest balS2 "999" (.ok 200 [] "")).1.respHeaders =
      [(StickyHeader, "1")] ∧
    headerGet (directorHeaders [(StickyHeader, "2"), ("Authorization", "Bearer client")] "t2")
      StickyHeader = "" := by
  refine ⟨by decide, by decide, by decide, by decide, by decide⟩

/-- C1 (code evaluation at the failing input): with healthy backends 1,2,3,
a request served by backend 1 whose relay fails upstream gets the 502
Bad Gateway JSON error response — but the handler leaves every backend's
healthy flag untouched, so backend 1 is still healthy afterwards and a
subsequent round of picks returns it again instead of skipping it.  This
contradicts the claim (and the repository's own tests
TestReverseProxyBackendError and TestReverseProxyBackendErrorSkipsOnNextRequest,
which assert the backend is unhealthy after the 502): the ErrorHandler in
NewReverseProxy never marks the serving backend unhealthy. -/
theorem C1_upstream_error_eval :
    (selectBackend balS2 "").1 = some ⟨1, true, "t1"⟩ ∧
    (handleRequest balS2 "" .failure).1.status = 502 ∧
    (handleRequest balS2 "" .failure).1.body = backendErrorBody ∧
    (handleRequest balS2 "" .failure).2.backends = balS2.backends ∧
    PickByID (handleRequest balS2 "" .failure).2 1 = some ⟨1, true, "t1"⟩ ∧
    (pickN 3 (handleRequest balS2 "" .failure).2).1 = [some 2, some 3, some 1] := by
  refine ⟨by decide, by decide, by decide, by decide, by decide, by decide⟩

/-! ## Backend lifecycle (backend.go: EnsureSSH, CheckHealth, StartHealthLoop,
tryUpgradeToDirect, Close) -/

/-- A tunnel as the backend reads it: local loopback address and path flag. -/
structure TunnelM where
  localAddr : String
  isDirect : Bool
  deriving DecidableEq, Repr

/-- The supervisor-owned mutable fields of backend.Backend.  Times are Nat
seconds (time.Time / time.Duration at second granularity; every constant
involved is a whole number of seconds). -/
structure BackendState where
  tunnel : Option TunnelM
  baseURL : String
  healthy : Bool
  sshFails : Nat
  sshBackoffTil : Nat
  lastUpgradeAttempt : Nat
  modelName : String
  deriving DecidableEq, Repr

/-- EnsureSSH (backend.go:133-165): no-op when a tunnel exists or backoff
has not elapsed; otherwise runs the factory.  `factoryResult` is the
outcome of the tunnel-factory call (none = error).  On failure the fail
count is bumped and backoff-until becomes now + min(10·2^min(fails-1,5),
300) seconds; on success the fail count is zeroed and the tunnel stored.
Returns the new state and the Bool the Go function returns. -/
def EnsureSSH (s : BackendState) (now : Nat) (factoryResult : Option TunnelM) :
    BackendState × Bool :=
  if s.tunnel.isSome then (s, true)
  else if now < s.sshBackoffTil then (s, false)
  else
    match factoryResult with
    | none =>
      let fails := s.sshFails + 1
      let wait := min (10 * 2 ^ (min (fails - 1) 5)) 300
      ({ s with sshFails := fails, sshBackoffTil := now + wait }, false)
    | some t => ({ s with sshFails := 0, tunnel := some t }, true)

/-- CheckHealth (backend.go:113-129): error (false) when no tunnel or the
HTTP check fails, storing healthy=false; on HTTP 200 stores the tunnel URL
as baseURL and healthy=true.  `healthOK` is the outcome of the GET
{tunnel}/v1/models probe. -/
def CheckHealth (s : BackendState) (healthOK : Bool) : BackendState × Bool :=
  match s.tunnel with
  | none => ({ s with healthy := false }, false)
  | some t =>
    if healthOK then
      ({ s with baseURL := "http://" ++ t.localAddr, healthy := true }, true)
    else ({ s with healthy := false }, false)

/-- tryUpgradeToDirect (backend.go:322-361): only when the current tunnel is
indirect and ≥30 s have passed since the last attempt; requires a configured
direct endpoint; creates a direct-only candidate, validates it with an
independent health check, and on success swaps tunnel and baseURL. -/
def tryUpgradeToDirect (s : BackendState) (now : Nat)
    (publicIPAddr : String) (directSSHPort : Nat)
    (candidate : Option TunnelM) (candidateHealthOK : Bool) : BackendState :=
  match s.tunnel with
  | none => s
  | some t =>
    if t.isDirect then s
    else if now - s.lastUpgradeAttempt < 30 then s
    else
      let s1 := { s with lastUpgradeAttempt := now }
      if publicIPAddr = "" ∨ directSSHPort = 0 then s1
      else
        match candidate with
        | none => s1
        | some d =>
          if candidateHealthOK then
            { s1 with tunnel := some d, baseURL := "http://" ++ d.localAddr }
          else s1

/-- Close (backend.go:396-409): clears the healthy flag and tears down the
tunnel. -/
def Close (s : BackendState) : BackendState :=
  { s with healthy := false, tunnel := none }

/-- One tick's worth of external outcomes for the supervisor loop. -/
structure TickEnv where
  now : Nat
  factoryResult : Option TunnelM
  healthOK : Bool
  hasInstance : Bool
  modelResult : Option String
  publicIPAddr : String
  directSSHPort : Nat
  upgradeCandidate : Option TunnelM
  upgradeHealthOK : Bool
  metricsOK : Bool

/-- Model discovery step of the loop (backend.go:287-292): when the model
name is unknown, store the (best-effort) FetchModel result. -/
def modelStep (s : BackendState) (modelResult : Option String) : BackendState :=
  if s.modelName = "" then
    match modelResult with
    | some name => { s with modelName := name }
    | none => s
  else s

/-- Metrics harvest step of the loop (backend.go:298-313): with a tunnel
present, a failed FetchGPUMetrics closes the tunnel and sets it nil so the
next tick's EnsureSSH rebuilds it.  The healthy flag is not touched. -/
def metricsStep (s : BackendState) (metricsOK : Bool) : BackendState :=
  match s.tunnel with
  | none => s
  | some _ => if metricsOK then s else { s with tunnel := none }

/-- The body of one ticker iteration of StartHealthLoop (backend.go:258-313):
EnsureSSH, CheckHealth, transition side-effects on the loop-local wasHealthy,
the removal check, model discovery, the direct-upgrade attempt, and the
metrics harvest.  Returns (state, wasHealthy, exited). -/
def loopTick (s0 : BackendState) (_wasHealthy : Bool) (env : TickEnv) :
    BackendState × Bool × Bool :=
  let s1 := (EnsureSSH s0 env.now env.factoryResult).1
  let c := CheckHealth s1 env.healthOK
  if c.2 = false then
    if env.hasInstance = false then ({ c.1 with healthy := false }, false, true)
    else (c.1, false, false)
  else
    (metricsStep
      (tryUpgradeToDirect (modelStep c.1 env.modelResult) env.now env.publicIPAddr
        env.directSSHPort env.upgradeCandidate env.upgradeHealthOK)
      env.metricsOK, true, false)

/-- The cap of min(fails-1, 5) inside the shift never changes the clamped
wait: min(10·2^min(m,5), 300) = min(10·2^m, 300). -/
theorem backoff_clamp_eq (m : Nat) :
    min (10 * 2 ^ (min m 5)) 300 = min (10 * 2 ^ m) 300 := by
  rcases le_or_lt m 5 with h | h
  · rw [Nat.min_eq_left h]
  · have h5 : min m 5 = 5 := Nat.min_eq_right (by omega)
    have hpow : 2 ^ 6 ≤ 2 ^ m := Nat.pow_le_pow_right (by omega) (by omega)
    have : 300 ≤ 10 * 2 ^ m := by
      calc 300 ≤ 10 * 2 ^ 6 := by omega
        _ ≤ 10 * 2 ^ m := by omega
    rw [h5, Nat.min_eq_right this]
    decide

/-- C4: for every k ≥ 1, when a supervisor with k-1 consecutive failures and
an elapsed backoff suffers its k-th consecutive tunnel-creation failure,
EnsureSSH records k failures and a backoff-until ≥ now + min(10s·2^(k-1),
5 min); a successful creation resets the failure count to 0; and the first
failure after a reset (fail count 0) waits exactly 10 s. -/
theorem C4_backoff_schedule :
    (∀ (k now : Nat) (s : BackendState), 1 ≤ k → s.tunnel = none →
      s.sshBackoffTil ≤ now → s.sshFails = k - 1 →
      (EnsureSSH s now none).1.sshFails = k ∧
      now + min (10 * 2 ^ (k - 1)) 300 ≤ (EnsureSSH s now none).1.sshBackoffTil) ∧
    (∀ (s : BackendState) (now : Nat) (t : TunnelM), s.tunnel = none →
      s.sshBackoffTil ≤ now → (EnsureSSH s now (some t)).1.sshFails = 0) ∧
    (∀ (s : BackendState) (now : Nat), s.tunnel = none → s.sshFails = 0 →
      s.sshBackoffTil ≤ now → (EnsureSSH s now none).1.sshBackoffTil = now + 10) := by
  refine ⟨?_, ?_, ?_⟩
  · intro k now s hk ht hb hf
    simp only [EnsureSSH, ht, Option.isSome_none, Bool.false_eq_true, if_false,
      if_neg (Nat.not_lt.mpr hb)]
    constructor
    · simp [hf]; omega
    · simp only [hf]
      have : k - 1 + 1 - 1 = k - 1 := by omega
      rw [this, backoff_clamp_eq]
  · intro s now t ht hb
    simp [EnsureSSH, ht, Nat.not_lt.mpr hb]
  · intro s now ht hf hb
    simp [EnsureSSH, ht, Nat.not_lt.mpr hb, hf]

/-- A backend state with six consecutive failures, used as the C4 witness. -/
def bsFails6 : BackendState :=
  { tunnel := none, baseURL := "", healthy := false, sshFails := 6,
    sshBackoffTil := 0, lastUpgradeAttempt := 0, modelName := "" }

/-- A backend state with a freshly reset failure count. -/
def bsFails0 : BackendState :=
  { bsFails6 with sshFails := 0 }

/-- Witness for C4: the 7th consecutive failure from bsFails6 at now = 0
waits the full 300 s cap; a success resets to 0; a failure from a reset
state waits exactly 10 s. -/
theorem C4_backoff_schedule_witness :
    ((1 ≤ 7 ∧ bsFails6.tunnel = none ∧ bsFails6.sshBackoffTil ≤ 0 ∧
        bsFails6.sshFails = 7 - 1) ∧
      (EnsureSSH bsFails6 0 none).1.sshFails = 7 ∧
      0 + min (10 * 2 ^ (7 - 1)) 300 ≤ (EnsureSSH bsFails6 0 none).1.sshBackoffTil) ∧
    (EnsureSSH bsFails6 0 (some ⟨"127.0.0.1:4000", false⟩)).1.sshFails = 0 ∧
    (EnsureSSH bsFails0 0 none).1.sshBackoffTil = 0 + 10 := by
  refine ⟨⟨by decide, ?_⟩, ?_, ?_⟩
  · exact C4_backoff_schedule.1 7 0 bsFails6 (by decide) (by decide) (by decide) (by decide)
  · exact C4_backoff_schedule.2.1 bsFails6 0 ⟨"127.0.0.1:4000", false⟩ (by decide) (by decide)
  · exact C4_backoff_schedule.2.2 bsFails0 0 (by decide) (by decide) (by decide)

/-- The spec's Backend invariant: healthy implies a tunnel is present and
the base URL is non-empty. -/
def HealthyInv (s : BackendState) : Prop :=
  s.healthy = true → s.tunnel ≠ none ∧ s.baseURL ≠ ""

/-- A URL built by the backend code is never the empty string. -/
theorem http_url_ne_empty (x : String) : ("http://" ++ x) ≠ "" := by
  intro h
  have h2 := congrArg String.length h
  rw [String.length_append] at h2
  have h3 : "http://".length = 7 := rfl
  have h4 : String.length "" = 0 := rfl
  rw [h3, h4] at h2
  omega

/-- A healthy backend state mid-loop: indirect tunnel up, base URL set. -/
def bsServing : BackendState :=
  { tunnel := some ⟨"127.0.0.1:5000", false⟩, baseURL := "http://127.0.0.1:5000",
    healthy := true, sshFails := 0, sshBackoffTil := 0, lastUpgradeAttempt := 0,
    modelName := "m" }

/-- A tick in which the health check passes but the metrics harvest fails. -/
def envMetricsFail : TickEnv :=
  { now := 0, factoryResult := none, healthOK := true, hasInstance := true,
    modelResult := none, publicIPAddr := "", directSSHPort := 0,
    upgradeCandidate := none, upgradeHealthOK := false, metricsOK := false }

/-- C2 counterexample: one supervisor-loop tick from a healthy serving state
whose metrics harvest fails ends with healthy = true and tunnel = nil — the
loop's teardown step (tunnel.Close(); tunnel = nil) does not clear the
healthy flag, so the claimed invariant is violated at that instant. -/
theorem C2_counterexample :
    (loopTick bsServing true envMetricsFail).1.healthy = true ∧
    (loopTick bsServing true envMetricsFail).1.tunnel = none := by
  refine ⟨by decide, by decide⟩

/-- CheckHealth reports failure only with the healthy flag stored false. -/
theorem checkHealth_false_healthy (s : BackendState) (hOK : Bool) :
    (CheckHealth s hOK).2 = false → (CheckHealth s hOK).1.healthy = false := by
  unfold CheckHealth
  rcases s.tunnel with _ | t
  · intro _; rfl
  · rcases hOK with _ | _
    · intro _; rfl
    · intro h; simp at h

/-- CheckHealth reports success only with a non-empty base URL stored. -/
theorem checkHealth_true_baseURL (s : BackendState) (hOK : Bool) :
    (CheckHealth s hOK).2 = true → (CheckHealth s hOK).1.baseURL ≠ "" := by
  unfold CheckHealth
  rcases s.tunnel with _ | t
  · intro h; simp at h
  · rcases hOK with _ | _
    · intro h; simp at h
    · intro _; exact http_url_ne_empty t.localAddr

/-- tryUpgradeToDirect never empties the base URL. -/
theorem tryUpgrade_baseURL_ne (s : BackendState) (now : Nat) (ip : String)
    (dp : Nat) (cand : Option TunnelM) (cOK : Bool) (h : s.baseURL ≠ "") :
    (tryUpgradeToDirect s now ip dp cand cOK).baseURL ≠ "" := by
  unfold tryUpgradeToDirect
  rcases s.tunnel with _ | t
  · exact h
  · dsimp only
    repeat' split
    all_goals first | exact h | exact http_url_ne_empty _

/-- modelStep only writes the model name. -/
theorem modelStep_baseURL (s : BackendState) (r : Option String) :
    (modelStep s r).baseURL = s.baseURL := by
  unfold modelStep
  repeat' split
  all_goals rfl

/-- metricsStep does not change the base URL. -/
theorem metricsStep_baseURL (s : BackendState) (m : Bool) :
    (metricsStep s m).baseURL = s.baseURL := by
  unfold metricsStep
  repeat' split
  all_goals rfl

/-- C2 as amended: the invariant healthy ⇒ tunnel present ∧ baseURL non-empty
holds after CheckHealth (which establishes it), and is preserved by
EnsureSSH, tryUpgradeToDirect and Close; after a full supervisor-loop tick
only the weaker healthy ⇒ baseURL non-empty is guaranteed, because the
metrics-failure teardown clears the tunnel without clearing the healthy
flag. -/
theorem C2_amended :
    (∀ (s : BackendState) (hOK : Bool), HealthyInv (CheckHealth s hOK).1) ∧
    (∀ (s : BackendState) (now : Nat) (fr : Option TunnelM),
      HealthyInv s → HealthyInv (EnsureSSH s now fr).1) ∧
    (∀ (s : BackendState) (now : Nat) (ip : String) (dp : Nat)
        (cand : Option TunnelM) (cOK : Bool),
      HealthyInv s → HealthyInv (tryUpgradeToDirect s now ip dp cand cOK)) ∧
    (∀ s : BackendState, HealthyInv (Close s)) ∧
    (∀ (s : BackendState) (w : Bool) (env : TickEnv),
      (loopTick s w env).1.healthy = true → (loopTick s w env).1.baseURL ≠ "") := by
  refine ⟨?_, ?_, ?_, ?_, ?_⟩
  · intro s hOK
    unfold CheckHealth HealthyInv
    rcases s.tunnel with _ | t
    · intro h; simp at h
    · rcases hOK with _ | _
      · intro h; simp at h
      · intro _
        exact ⟨by simp, http_url_ne_empty t.localAddr⟩
  · intro s now fr hs
    unfold EnsureSSH
    split
    · exact hs
    · split
      · exact hs
      · rcases fr with _ | t
        · intro h
          exact hs h
        · intro h
          exact ⟨by simp, (hs h).2⟩
  · intro s now ip dp cand cOK hs
    unfold tryUpgradeToDirect
    rcases htun : s.tunnel with _ | t
    · exact hs
    · dsimp only
      repeat' split
      all_goals intro hh
      all_goals first
        | exact ⟨by simp, http_url_ne_empty _⟩
        | exact ⟨by simp [htun], (hs hh).2⟩
  · intro s h
    simp [Close] at h
  · intro s w env
    rcases hc : (CheckHealth (EnsureSSH s env.now env.factoryResult).1 env.healthOK).2 with _ | _
    · have hh := checkHealth_false_healthy _ _ hc
      rcases henv : env.hasInstance with _ | _ <;>
        simp [loopTick, hc, henv, hh]
    · have hb := checkHealth_true_baseURL _ _ hc
      have hb4 := tryUpgrade_baseURL_ne
        (modelStep (CheckHealth (EnsureSSH s env.now env.factoryResult).1 env.healthOK).1
          env.modelResult)
        env.now env.publicIPAddr env.directSSHPort env.upgradeCandidate env.upgradeHealthOK
        (by rw [modelStep_baseURL]; exact hb)
      simp [loopTick, hc, metricsStep_baseURL, hb4]

/-- Witness for C2 as amended, at the serving state and metrics-failure tick. -/
theorem C2_amended_witness :
    HealthyInv (CheckHealth bsServing true).1 ∧
    (HealthyInv bsServing ∧ HealthyInv (EnsureSSH bsServing 0 none).1) ∧
    HealthyInv (tryUpgradeToDirect bsServing 0 "" 0 none false) ∧
    HealthyInv (Close bsServing) ∧
    ((loopTick bsServing true envMetricsFail).1.healthy = true ∧
      (loopTick bsServing true envMetricsFail).1.baseURL ≠ "") := by
  refine ⟨C2_amended.1 bsServing true,
    ⟨by unfold HealthyInv; decide, C2_amended.2.1 bsServing 0 none (by unfold HealthyInv; decide)⟩,
    C2_amended.2.2.1 bsServing 0 "" 0 none false (by unfold HealthyInv; decide),
    C2_amended.2.2.2.1 bsServing,
    by decide, C2_amended.2.2.2.2 bsServing true envMetricsFail (by decide)⟩

/-! ## vast/watcher.go: poll reconciliation -/

/-- InstanceState (vast types): lifecycle of a tracked instance. -/
inductive InstanceState where
  | discovered
  | connecting
  | healthy
  | unhealthy
  | removing
  deriving DecidableEq, Repr

/-- The fields of vast.Instance that the watcher's poll reads and writes.
float64 GPU readings (pointers in Go) are Option ℚ. -/
structure InstanceM where
  id : Int
  actualStatus : String
  publicIPAddr : String
  gpuUtil : Option ℚ
  gpuTemp : Option ℚ
  containerPort : Nat
  hostPort : Nat
  directSSHPort : Nat
  baseURL : String
  state : InstanceState
  stateChangedAt : Nat
  deriving DecidableEq, Repr

/-- An InstanceEvent as the subscribers see it: the kind tag and the id of
the instance it carries. -/
structure InstanceEvent where
  type : String
  instId : Int
  deriving DecidableEq, Repr

/-- The watcher's id→Instance map, as an association list keyed by id
(one linearization of Go's map iteration order). -/
abbrev InstTable : Type := List (Int × InstanceM)

/-- Map lookup. -/
def lookupInst : InstTable → Int → Option InstanceM
  | [], _ => none
  | (k, v) :: rest, id => if k = id then some v else lookupInst rest id

/-- Map store: replace in place when the key exists, else append. -/
def setInst : InstTable → Int → InstanceM → InstTable
  | [], id, v => [(id, v)]
  | (k, w) :: rest, id, v =>
    if k = id then (k, v) :: rest else (k, w) :: setInst rest id v

/-- Per-poll environment: the wall clock and the derived-field resolvers
(Instance.ResolveContainerPort / ResolveHostPort / ResolveDirectSSHPort of
the vast types file), embedded abstractly — the reconciliation claims never
inspect the resolved ports, only which branch ran. -/
structure PollEnv where
  now : Nat
  resolveContainerPort : InstanceM → Nat
  resolveHostPort : InstanceM → Nat
  resolveDirectSSHPort : InstanceM → Nat

/-- The new-instance construction of poll (watcher.go:97-110): resolve the
derived ports, set DISCOVERED with the current timestamp, and set the base
URL when a public address and host port are known. -/
def mkDiscovered (env : PollEnv) (r : InstanceM) : InstanceM :=
  let hp := env.resolveHostPort r
  { r with
    containerPort := env.resolveContainerPort r
    hostPort := hp
    directSSHPort := env.resolveDirectSSHPort r
    state := InstanceState.discovered
    stateChangedAt := env.now
    baseURL :=
      if r.publicIPAddr ≠ "" ∧ hp ≠ 0 then
        "http://" ++ r.publicIPAddr ++ ":" ++ toString hp ++ "/v1"
      else r.baseURL }

/-- The per-record loop of poll (watcher.go:87-118): skip non-running
records; record the id as seen; unseen ids are stored as DISCOVERED and
emit `added`; known ids get their mutable observational fields updated in
place and emit `updated`.  Returns (table, seen-ids, events in order). -/
def processRecords (env : PollEnv) :
    InstTable → List Int → List InstanceM → InstTable × List Int × List InstanceEvent
  | st, seen, [] => (st, seen, [])
  | st, seen, r :: rest =>
    if r.actualStatus = "running" then
      match lookupInst st r.id with
      | none =>
        let out := processRecords env (setInst st r.id (mkDiscovered env r)) (r.id :: seen) rest
        (out.1, out.2.1, ⟨"added", r.id⟩ :: out.2.2)
      | some ex =>
        let out := processRecords env
          (setInst st r.id
            { ex with gpuUtil := r.gpuUtil, gpuTemp := r.gpuTemp,
                      actualStatus := r.actualStatus })
          (r.id :: seen) rest
        (out.1, out.2.1, ⟨"updated", r.id⟩ :: out.2.2)
    else processRecords env st seen rest

/-- The removed-detection loop of poll (watcher.go:121-127): every tracked
id not seen this poll and not already REMOVING transitions to REMOVING with
the current timestamp and emits `removed`; nothing is deleted. -/
def removalPass (now : Nat) (seen : List Int) :
    InstTable → InstTable × List InstanceEvent
  | [] => ([], [])
  | (id, inst) :: rest =>
    let out := removalPass now seen rest
    if seen.contains id = false ∧ inst.state ≠ InstanceState.removing then
      ((id, { inst with state := InstanceState.removing, stateChangedAt := now }) :: out.1,
       ⟨"removed", id⟩ :: out.2)
    else ((id, inst) :: out.1, out.2)

/-- poll (watcher.go:74-128).  `fetched` is the ListInstances result; none
is the error case, which logs and returns before touching any state
(watcher.go:76-79).  Otherwise reconcile and return the new table together
with the events emitted, in issue order. -/
def poll (env : PollEnv) (st : InstTable) (fetched : Option (List InstanceM)) :
    InstTable × List InstanceEvent :=
  match fetched with
  | none => (st, [])
  | some recs =>
    let p := processRecords env st [] recs
    let rp := removalPass env.now p.2.1 p.1
    (rp.1, p.2.2 ++ rp.2)

/-- C9: a poll whose fetch of the instance list fails returns with the
tracked map untouched and no event emitted — the error path of poll is
atomic, and Start's loop then simply waits for the next tick. -/
theorem C9_poll_error_atomic (env : PollEnv) (st : InstTable) :
    poll env st none = (st, []) := rfl

/-- lookup after store. -/
theorem lookupInst_set (st : InstTable) (id : Int) (v : InstanceM) (j : Int) :
    lookupInst (setInst st id v) j = if id = j then some v else lookupInst st j := by
  induction st with
  | nil => simp [setInst, lookupInst]
  | cons p rest ih =>
    obtain ⟨k, w⟩ := p
    by_cases hk : k = id
    · subst hk
      simp only [setInst, if_pos rfl, lookupInst]
      by_cases hj : k = j <;> simp [hj, lookupInst]
    · simp only [setInst, if_neg hk, lookupInst]
      by_cases hj : k = j
      · subst hj
        have : ¬ id = k := fun h => hk h.symm
        simp [this]
      · simp [hj, ih]

/-- Every entry of a stored table is an old entry or the stored pair. -/
theorem mem_setInst (st : InstTable) (id : Int) (v : InstanceM)
    (p : Int × InstanceM) (hp : p ∈ setInst st id v) : p ∈ st ∨ p = (id, v) := by
  induction st with
  | nil => simp [setInst] at hp; simp [hp]
  | cons q rest ih =>
    obtain ⟨k, w⟩ := q
    by_cases hk : k = id
    · subst hk
      simp only [setInst, if_pos rfl] at hp
      rcases List.mem_cons.mp hp with h | h
      · right; rw [h]
      · left; exact List.mem_cons_of_mem _ h
    · simp only [setInst, if_neg hk] at hp
      rcases List.mem_cons.mp hp with h | h
      · left; rw [h]; exact List.mem_cons_self _ _
      · rcases ih h with h2 | h2
        · left; exact List.mem_cons_of_mem _ h2
        · right; exact h2

/-- The seen-id accumulator of processRecords depends only on the records:
it is the reversed ids of the running records, prepended to the input. -/
theorem processRecords_seen (env : PollEnv) (recs : List InstanceM) :
    ∀ (st : InstTable) (seen : List Int),
      (processRecords env st seen recs).2.1 =
        ((recs.filter (fun r => r.actualStatus == "running")).map
          (fun r => r.id)).reverse ++ seen := by
  induction recs with
  | nil => intro st seen; simp [processRecords]
  | cons r rest ih =>
    intro st seen
    by_cases hr : r.actualStatus = "running"
    · rw [processRecords]
      simp only [if_pos hr]
      rcases hl : lookupInst st r.id with _ | ex
      · simp only [ih, List.filter_cons,
          show (r.actualStatus == "running") = true from by simp [hr], if_true, List.map_cons,
          List.reverse_cons, List.append_assoc, List.cons_append, List.nil_append]
      · simp only [ih, List.filter_cons,
          show (r.actualStatus == "running") = true from by simp [hr], if_true, List.map_cons,
          List.reverse_cons, List.append_assoc, List.cons_append, List.nil_append]
    · rw [processRecords]
      simp only [if_neg hr]
      simp only [ih, List.filter_cons,
        show (r.actualStatus == "running") = false from by simp [hr]]
      simp

/-- Processing records never removes a tracked id. -/
theorem processRecords_isSome_mono (env : PollEnv) (recs : List InstanceM) :
    ∀ (st : InstTable) (seen : List Int) (id : Int),
      (lookupInst st id).isSome = true →
      (lookupInst (processRecords env st seen recs).1 id).isSome = true := by
  induction recs with
  | nil => intro st seen id h; simpa [processRecords] using h
  | cons r rest ih =>
    intro st seen id h
    rw [processRecords]
    by_cases hr : r.actualStatus = "running"
    · simp only [if_pos hr]
      rcases hl : lookupInst st r.id with _ | ex
      · refine ih _ _ _ ?_
        rw [lookupInst_set]
        by_cases hj : r.id = id <;> simp [hj, h]
      · refine ih _ _ _ ?_
        rw [lookupInst_set]
        by_cases hj : r.id = id <;> simp [hj, h]
    · simp only [if_neg hr]
      exact ih _ _ _ h

/-- After processing, every running record's id is tracked. -/
theorem processRecords_mem (env : PollEnv) (recs : List InstanceM) :
    ∀ (st : InstTable) (seen : List Int) (r : InstanceM), r ∈ recs →
      r.actualStatus = "running" →
      (lookupInst (processRecords env st seen recs).1 r.id).isSome = true := by
  induction recs with
  | nil => intro st seen r hr; simp at hr
  | cons q rest ih =>
    intro st seen r hr hrun
    rw [processRecords]
    by_cases hq : q.actualStatus = "running"
    · simp only [if_pos hq]
      rcases List.mem_cons.mp hr with heq | hmem
      · subst heq
        rcases hl : lookupInst st r.id with _ | ex
        · refine processRecords_isSome_mono env rest _ _ _ ?_
          rw [lookupInst_set]
          simp
        · refine processRecords_isSome_mono env rest _ _ _ ?_
          rw [lookupInst_set]
          simp
      · rcases hl : lookupInst st q.id with _ | ex
        · exact ih _ _ _ hmem hrun
        · exact ih _ _ _ hmem hrun
    · simp only [if_neg hq]
      rcases List.mem_cons.mp hr with heq | hmem
      · subst heq; exact absurd hrun hq
      · exact ih _ _ _ hmem hrun

/-- When every record's id is already tracked (and running), processing
emits exactly one `updated` event per record, in record order. -/
theorem processRecords_all_updated (env : PollEnv) (recs : List InstanceM) :
    ∀ (st : InstTable) (seen : List Int),
      (∀ r ∈ recs, r.actualStatus = "running" ∧ (lookupInst st r.id).isSome = true) →
      (processRecords env st seen recs).2.2 =
        recs.map (fun r => ⟨"updated", r.id⟩) := by
  induction recs with
  | nil => intro st seen _; simp [processRecords]
  | cons r rest ih =>
    intro st seen h
    obtain ⟨hrun, hsome⟩ := h r (List.mem_cons_self _ _)
    rw [processRecords]
    simp only [if_pos hrun]
    rcases hl : lookupInst st r.id with _ | ex
    · rw [hl] at hsome; simp at hsome
    · simp only [List.map_cons, List.cons.injEq, true_and]
      refine ih _ _ ?_
      intro q hq
      obtain ⟨hq1, hq2⟩ := h q (List.mem_cons_of_mem _ hq)
      refine ⟨hq1, ?_⟩
      rw [lookupInst_set]
      by_cases hj : r.id = q.id <;> simp [hj, hq2]

/-- When every record's id is already tracked (and running), processing
does not change any tracked instance's lifecycle state. -/
theorem processRecords_states (env : PollEnv) (recs : List InstanceM) :
    ∀ (st : InstTable) (seen : List Int),
      (∀ r ∈ recs, r.actualStatus = "running" ∧ (lookupInst st r.id).isSome = true) →
      ∀ id, (lookupInst (processRecords env st seen recs).1 id).map InstanceM.state =
        (lookupInst st id).map InstanceM.state := by
  induction recs with
  | nil => intro st seen _ id; simp [processRecords]
  | cons r rest ih =>
    intro st seen h id
    obtain ⟨hrun, hsome⟩ := h r (List.mem_cons_self _ _)
    rw [processRecords]
    simp only [if_pos hrun]
    rcases hl : lookupInst st r.id with _ | ex
    · rw [hl] at hsome; simp at hsome
    · have hrest : ∀ q ∈ rest, q.actualStatus = "running" ∧
          (lookupInst (setInst st r.id
            { ex with gpuUtil := r.gpuUtil, gpuTemp := r.gpuTemp,
                      actualStatus := r.actualStatus }) q.id).isSome = true := by
        intro q hq
        obtain ⟨hq1, hq2⟩ := h q (List.mem_cons_of_mem _ hq)
        refine ⟨hq1, ?_⟩
        rw [lookupInst_set]
        by_cases hj : r.id = q.id <;> simp [hj, hq2]
      rw [ih _ _ hrest id, lookupInst_set]
      by_cases hj : r.id = id
      · subst hj
        simp [hl]
      · simp [hj]

/-- The approval condition the removal pass leaves every entry in: either
its id was seen this poll or it is already REMOVING. -/
def entryOK (seen : List Int) (p : Int × InstanceM) : Prop :=
  seen.contains p.1 = true ∨ p.2.state = InstanceState.removing

/-- Processing preserves entryOK for any seen-set that covers the records. -/
theorem processRecords_entryOK (env : PollEnv) (recs : List InstanceM) (S : List Int)
    (hS : ∀ r ∈ recs, S.contains r.id = true) :
    ∀ (st : InstTable) (seen : List Int),
      (∀ p ∈ st, entryOK S p) →
      ∀ p ∈ (processRecords env st seen recs).1, entryOK S p := by
  induction recs with
  | nil => intro st seen hst p hp; exact hst p (by simpa [processRecords] using hp)
  | cons r rest ih =>
    intro st seen hst p hp
    rw [processRecords] at hp
    by_cases hr : r.actualStatus = "running"
    · simp only [if_pos hr] at hp
      rcases hl : lookupInst st r.id with _ | ex
      · rw [hl] at hp
        refine ih (fun q hq => hS q (List.mem_cons_of_mem _ hq)) _ _ ?_ p hp
        intro q hq
        rcases mem_setInst _ _ _ _ hq with h2 | h2
        · exact hst q h2
        · rw [h2]
          exact Or.inl (hS r (List.mem_cons_self _ _))
      · rw [hl] at hp
        refine ih (fun q hq => hS q (List.mem_cons_of_mem _ hq)) _ _ ?_ p hp
        intro q hq
        rcases mem_setInst _ _ _ _ hq with h2 | h2
        · exact hst q h2
        · rw [h2]
          exact Or.inl (hS r (List.mem_cons_self _ _))
    · simp only [if_neg hr] at hp
      exact ih (fun q hq => hS q (List.mem_cons_of_mem _ hq)) _ _ hst p hp

/-- The removal pass leaves every entry seen-or-REMOVING. -/
theorem removalPass_post (now : Nat) (seen : List Int) :
    ∀ st : InstTable, ∀ p ∈ (removalPass now seen st).1, entryOK seen p := by
  intro st
  induction st with
  | nil => intro p hp; simp [removalPass] at hp
  | cons q rest ih =>
    obtain ⟨id, inst⟩ := q
    intro p hp
    rw [removalPass] at hp
    split at hp
    · rcases List.mem_cons.mp hp with h | h
      · rw [h]; exact Or.inr rfl
      · exact ih p h
    · rcases List.mem_cons.mp hp with h | h
      · rw [h]
        rename_i hcond
        rcases not_and_or.mp hcond with h2 | h2
        · exact Or.inl (by simpa using h2)
        · exact Or.inr (by simpa using h2)
      · exact ih p h

/-- On a table whose entries are all seen-or-REMOVING, the removal pass is
the identity and emits nothing. -/
theorem removalPass_noop (now : Nat) (seen : List Int) :
    ∀ st : InstTable, (∀ p ∈ st, entryOK seen p) →
      removalPass now seen st = (st, []) := by
  intro st
  induction st with
  | nil => intro _; rfl
  | cons q rest ih =>
    obtain ⟨id, inst⟩ := q
    intro h
    rw [removalPass]
    have hq := h (id, inst) (List.mem_cons_self _ _)
    have hcond : ¬ (seen.contains id = false ∧ inst.state ≠ InstanceState.removing) := by
      rcases hq with h2 | h2
      · intro hc; rw [h2] at hc; simp at hc
      · intro hc; exact hc.2 h2
    rw [if_neg hcond, ih (fun p hp => h p (List.mem_cons_of_mem _ hp))]

/-- The removal pass never removes (or adds) a tracked id. -/
theorem removalPass_isSome (now : Nat) (seen : List Int) :
    ∀ (st : InstTable) (id : Int),
      (lookupInst (removalPass now seen st).1 id).isSome = (lookupInst st id).isSome := by
  intro st
  induction st with
  | nil => intro id; rfl
  | cons q rest ih =>
    obtain ⟨k, inst⟩ := q
    intro id
    rw [removalPass]
    split
    · by_cases hk : k = id <;> simp [lookupInst, hk, ih]
    · by_cases hk : k = id <;> simp [lookupInst, hk, ih]

/-- poll on a successful fetch, written with explicit projections. -/
theorem poll_some (env : PollEnv) (st : InstTable) (recs : List InstanceM) :
    poll env st (some recs) =
      ((removalPass env.now (processRecords env st [] recs).2.1
          (processRecords env st [] recs).1).1,
       (processRecords env st [] recs).2.2 ++
         (removalPass env.now (processRecords env st [] recs).2.1
            (processRecords env st [] recs).1).2) := rfl

/-- A list of `updated` events contains no event of another kind. -/
theorem updated_events_filter (l : List InstanceM) (t : String)
    (ht : ("updated" == t) = false) :
    (l.map (fun r => (⟨"updated", r.id⟩ : InstanceEvent))).filter
      (fun e => e.type == t) = [] := by
  induction l with
  | nil => rfl
  | cons r rest ih => simp [List.filter_cons, ht, ih]

/-- C6: when two consecutive polls fetch the same records, all with
control-plane status "running", the second poll emits zero `added` and zero
`removed` events — exactly one `updated` event per record, in record
order — and no tracked instance changes lifecycle state. -/
theorem C6_idempotent_repoll (env1 env2 : PollEnv) (st0 : InstTable)
    (recs : List InstanceM) (hrun : ∀ r ∈ recs, r.actualStatus = "running") :
    (poll env2 (poll env1 st0 (some recs)).1 (some recs)).2.filter
        (fun e => e.type == "added") = [] ∧
    (poll env2 (poll env1 st0 (some recs)).1 (some recs)).2.filter
        (fun e => e.type == "removed") = [] ∧
    (poll env2 (poll env1 st0 (some recs)).1 (some recs)).2 =
      recs.map (fun r => ⟨"updated", r.id⟩) ∧
    ∀ id, (lookupInst (poll env2 (poll env1 st0 (some recs)).1 (some recs)).1 id).map
        InstanceM.state =
      (lookupInst (poll env1 st0 (some recs)).1 id).map InstanceM.state := by
  have hScov : ∀ r ∈ recs,
      (((recs.filter (fun r => r.actualStatus == "running")).map
        (fun r => r.id)).reverse).contains r.id = true := by
    intro r hr
    refine List.elem_iff.mpr ?_
    rw [List.mem_reverse]
    exact List.mem_map.mpr ⟨r, List.mem_filter.mpr ⟨hr, by simp [hrun r hr]⟩, rfl⟩
  have hseen1 : (processRecords env1 st0 [] recs).2.1 =
      ((recs.filter (fun r => r.actualStatus == "running")).map
        (fun r => r.id)).reverse := by
    rw [processRecords_seen]; simp
  have hst1 : (poll env1 st0 (some recs)).1 =
      (removalPass env1.now (processRecords env1 st0 [] recs).2.1
        (processRecords env1 st0 [] recs).1).1 := rfl
  have hOK1 : ∀ p ∈ (poll env1 st0 (some recs)).1,
      entryOK (((recs.filter (fun r => r.actualStatus == "running")).map
        (fun r => r.id)).reverse) p := by
    rw [hst1, ← hseen1]
    exact removalPass_post env1.now _ _
  have hpres1 : ∀ r ∈ recs,
      (lookupInst (poll env1 st0 (some recs)).1 r.id).isSome = true := by
    intro r hr
    rw [hst1, removalPass_isSome]
    exact processRecords_mem env1 recs st0 [] r hr (hrun r hr)
  have hboth : ∀ r ∈ recs, r.actualStatus = "running" ∧
      (lookupInst (poll env1 st0 (some recs)).1 r.id).isSome = true :=
    fun r hr => ⟨hrun r hr, hpres1 r hr⟩
  have hevents : (processRecords env2 (poll env1 st0 (some recs)).1 [] recs).2.2 =
      recs.map (fun r => ⟨"updated", r.id⟩) :=
    processRecords_all_updated env2 recs _ [] hboth
  have hseen2 : (processRecords env2 (poll env1 st0 (some recs)).1 [] recs).2.1 =
      ((recs.filter (fun r => r.actualStatus == "running")).map
        (fun r => r.id)).reverse := by
    rw [processRecords_seen]; simp
  have hOK2 : ∀ p ∈ (processRecords env2 (poll env1 st0 (some recs)).1 [] recs).1,
      entryOK (((recs.filter (fun r => r.actualStatus == "running")).map
        (fun r => r.id)).reverse) p :=
    processRecords_entryOK env2 recs _ hScov _ [] hOK1
  have hnoop : removalPass env2.now
      (processRecords env2 (poll env1 st0 (some recs)).1 [] recs).2.1
      (processRecords env2 (poll env1 st0 (some recs)).1 [] recs).1 =
      ((processRecords env2 (poll env1 st0 (some recs)).1 [] recs).1, []) := by
    rw [hseen2]
    exact removalPass_noop env2.now _ _ hOK2
  have hpoll2 : poll env2 (poll env1 st0 (some recs)).1 (some recs) =
      ((processRecords env2 (poll env1 st0 (some recs)).1 [] recs).1,
       recs.map (fun r => ⟨"updated", r.id⟩)) := by
    rw [poll_some, hnoop, hevents]
    simp
  refine ⟨?_, ?_, ?_, ?_⟩
  · rw [hpoll2]
    exact updated_events_filter recs "added" (by decide)
  · rw [hpoll2]
    exact updated_events_filter recs "removed" (by decide)
  · rw [hpoll2]
  · intro id
    rw [hpoll2]
    exact processRecords_states env2 recs _ [] hboth id

/-- A concrete running record for the C6 witness. -/
def recA : InstanceM :=
  { id := 1, actualStatus := "running", publicIPAddr := "1.2.3.4",
    gpuUtil := some 50, gpuTemp := some 60, containerPort := 0, hostPort := 0,
    directSSHPort := 0, baseURL := "", state := InstanceState.discovered,
    stateChangedAt := 0 }

/-- A second concrete running record. -/
def recB : InstanceM := { recA with id := 2 }

/-- A concrete poll environment with fixed resolver outputs. -/
def envPoll : PollEnv := ⟨0, fun _ => 8000, fun _ => 40000, fun _ => 22⟩

/-- Witness for C6: two polls of the same two running records from an empty
table. -/
theorem C6_idempotent_repoll_witness :
    (∀ r ∈ [recA, recB], r.actualStatus = "running") ∧
    ((poll envPoll (poll envPoll [] (some [recA, recB])).1 (some [recA, recB])).2.filter
        (fun e => e.type == "added") = [] ∧
      (poll envPoll (poll envPoll [] (some [recA, recB])).1 (some [recA, recB])).2.filter
        (fun e => e.type == "removed") = [] ∧
      (poll envPoll (poll envPoll [] (some [recA, recB])).1 (some [recA, recB])).2 =
        [recA, recB].map (fun r => ⟨"updated", r.id⟩) ∧
      ∀ id, (lookupInst
          (poll envPoll (poll envPoll [] (some [recA, recB])).1 (some [recA, recB])).1 id).map
            InstanceM.state =
        (lookupInst (poll envPoll [] (some [recA, recB])).1 id).map InstanceM.state) :=
  ⟨by decide, C6_idempotent_repoll envPoll envPoll [] [recA, recB] (by decide)⟩

/-! ## backend/ssh.go: NewSSHTunnel endpoint selection -/

/-- The failure modes of NewSSHTunnel that are visible before the port
forward starts (ssh.go:42-78). -/
inductive SSHError where
  | buildAuth      -- buildAuthMethods found no usable key
  | directConnect  -- the direct CreateClient attempt returned an error
  | noEndpoints    -- "no SSH endpoints available"
  | clientNil      -- go-sshlib left conn.Client nil
  deriving DecidableEq, Repr

instance : DecidableEq (Except SSHError Bool) := fun a b => by
  rcases a with ea | va <;> rcases b with eb | vb
  · exact decidable_of_iff (ea = eb) (by simp)
  · exact Decidable.isFalse (by simp)
  · exact Decidable.isFalse (by simp)
  · exact decidable_of_iff (va = vb) (by simp)

/-- The network outcomes the factory can observe. -/
structure SSHEnv where
  authOK : Bool          -- buildAuthMethods succeeds
  proxyConnectOK : Bool  -- CreateClient(sshHost, sshPort) would succeed
  directConnectOK : Bool -- CreateClient(publicIP, directSSHPort) would succeed
  clientNonNil : Bool    -- the library populated conn.Client
  deriving DecidableEq, Repr

/-- The connection phase of NewSSHTunnel (ssh.go:42-78): proxy SSH is tried
first whenever sshHost is non-empty; only if that did not connect and a
direct endpoint is configured (publicIP non-empty, directSSHPort non-zero)
is direct SSH tried, and its failure returns immediately as a dial error;
with no endpoint left the "no SSH endpoints available" error is returned.
On success the returned Bool is the tunnel's isDirect flag.  (The local
listener setup that follows is infallible-modelled; no claim touches it.) -/
def NewSSHTunnel (env : SSHEnv) (publicIP : String) (directSSHPort : Nat)
    (sshHost : String) : Except SSHError Bool :=
  if env.authOK = false then Except.error SSHError.buildAuth
  else
    let proxyConnected := (sshHost ≠ "") ∧ env.proxyConnectOK = true
    if proxyConnected then
      if env.clientNonNil = false then Except.error SSHError.clientNil
      else Except.ok false
    else
      if (publicIP ≠ "") ∧ directSSHPort ≠ 0 then
        if env.directConnectOK = false then Except.error SSHError.directConnect
        else if env.clientNonNil = false then Except.error SSHError.clientNil
        else Except.ok true
      else Except.error SSHError.noEndpoints

/-- An environment where both endpoints refuse the connection. -/
def envBothFail : SSHEnv :=
  { authOK := true, proxyConnectOK := false, directConnectOK := false,
    clientNonNil := true }

/-- C7 counterexample: with both endpoints configured and both failing, the
factory fails with the direct dial error, not the "no endpoints" error the
claim requires for the both-fail case. -/
theorem C7_counterexample :
    NewSSHTunnel envBothFail "1.2.3.4" 22 "ssh4.vast.ai" =
      Except.error SSHError.directConnect ∧
    NewSSHTunnel envBothFail "1.2.3.4" 22 "ssh4.vast.ai" ≠
      Except.error SSHError.noEndpoints := by
  refine ⟨by decide, by decide⟩

/-- C7 as amended: with auth methods available and the client populated, the
factory attempts the indirect (proxy) endpoint first whenever sshHost is
non-empty, yielding is-direct=false; only when the indirect endpoint is
absent or fails does it attempt a configured direct endpoint, yielding
is-direct=true; when the direct endpoint is attempted and fails the error is
the direct dial error; and the distinguishable "no endpoints" error is
returned exactly when no endpoint remains to attempt — the indirect endpoint
absent or failed and the direct endpoint unconfigured (disabled by empty
values). -/
theorem C7_amended (env : SSHEnv) (publicIP : String) (directSSHPort : Nat)
    (sshHost : String) (hauth : env.authOK = true) (hclient : env.clientNonNil = true) :
    (sshHost ≠ "" → env.proxyConnectOK = true →
      NewSSHTunnel env publicIP directSSHPort sshHost = Except.ok false) ∧
    ((sshHost = "" ∨ env.proxyConnectOK = false) → publicIP ≠ "" → directSSHPort ≠ 0 →
      env.directConnectOK = true →
      NewSSHTunnel env publicIP directSSHPort sshHost = Except.ok true) ∧
    ((sshHost = "" ∨ env.proxyConnectOK = false) → publicIP ≠ "" → directSSHPort ≠ 0 →
      env.directConnectOK = false →
      NewSSHTunnel env publicIP directSSHPort sshHost =
        Except.error SSHError.directConnect) ∧
    ((sshHost = "" ∨ env.proxyConnectOK = false) → (publicIP = "" ∨ directSSHPort = 0) →
      NewSSHTunnel env publicIP directSSHPort sshHost =
        Except.error SSHError.noEndpoints) := by
  refine ⟨?_, ?_, ?_, ?_⟩
  · intro hh hp
    simp [NewSSHTunnel, hauth, hclient, hh, hp]
  · intro hmiss hip hport hd
    have hnp : ¬ ((sshHost ≠ "") ∧ env.proxyConnectOK = true) := by
      rcases hmiss with h | h <;> simp [h]
    simp [NewSSHTunnel, hauth, hclient, hnp, hip, hport, hd]
  · intro hmiss hip hport hd
    have hnp : ¬ ((sshHost ≠ "") ∧ env.proxyConnectOK = true) := by
      rcases hmiss with h | h <;> simp [h]
    simp [NewSSHTunnel, hauth, hclient, hnp, hip, hport, hd]
  · intro hmiss hdis
    have hnp : ¬ ((sshHost ≠ "") ∧ env.proxyConnectOK = true) := by
      rcases hmiss with h | h <;> simp [h]
    have hnd : ¬ ((publicIP ≠ "") ∧ directSSHPort ≠ 0) := by
      rcases hdis with h | h <;> simp [h]
    simp [NewSSHTunnel, hauth, hnp, hnd]

/-- Witness for C7 as amended, exercising all four branches concretely. -/
theorem C7_amended_witness :
    (envBothFail.authOK = true ∧ envBothFail.clientNonNil = true) ∧
    NewSSHTunnel { envBothFail with proxyConnectOK := true } "1.2.3.4" 22 "ssh4.vast.ai" =
      Except.ok false ∧
    NewSSHTunnel { envBothFail with directConnectOK := true } "1.2.3.4" 22 "ssh4.vast.ai" =
      Except.ok true ∧
    NewSSHTunnel envBothFail "1.2.3.4" 22 "ssh4.vast.ai" =
      Except.error SSHError.directConnect ∧
    NewSSHTunnel envBothFail "" 0 "ssh4.vast.ai" = Except.error SSHError.noEndpoints := by
  refine ⟨⟨rfl, rfl⟩, ?_, ?_, ?_, ?_⟩
  · exact ((C7_amended { envBothFail with proxyConnectOK := true } "1.2.3.4" 22 "ssh4.vast.ai"
      rfl rfl).1 (by decide) rfl)
  · exact ((C7_amended { envBothFail with directConnectOK := true } "1.2.3.4" 22 "ssh4.vast.ai"
      rfl rfl).2.1 (Or.inr rfl) (by decide) (by decide) rfl)
  · exact ((C7_amended envBothFail "1.2.3.4" 22 "ssh4.vast.ai"
      rfl rfl).2.2.1 (Or.inr rfl) (by decide) (by decide) rfl)
  · exact ((C7_amended envBothFail "" 0 "ssh4.vast.ai"
      rfl rfl).2.2.2 (Or.inr rfl) (Or.inl rfl))

/-! ## backend/gpu.go: ParseNvidiaSmi -/

/-- A parsed per-GPU record.  float64 values are modelled as exact
rationals; on nvidia-smi's integer outputs the two coincide. -/
structure GPUMetric where
  utilization : ℚ
  temperature : ℚ
  deriving DecidableEq, Repr

/-- strconv.ParseFloat on the decimal forms nvidia-smi emits: optional
sign, digits with an optional fraction part (exponent/hex/Inf forms are
out of the inputs' alphabet and unmodelled).  Rejects anything else, in
particular non-numeric text. -/
def goParseFloat (s : String) : Option ℚ :=
  let p : Bool × List Char :=
    match s.data with
    | '-' :: r => (true, r)
    | '+' :: r => (false, r)
    | cs => (false, cs)
  let ip := p.2.takeWhile (fun c => c ≠ '.')
  let rest := p.2.dropWhile (fun c => c ≠ '.')
  let build : Option ℚ :=
    match rest with
    | [] =>
      if ip ≠ [] ∧ ip.all (·.isDigit) then some ((digitsToNat ip : ℤ) : ℚ) else none
    | _ :: fp =>
      if (ip ≠ [] ∨ fp ≠ []) ∧ ip.all (·.isDigit) ∧ fp.all (·.isDigit) then
        some (((digitsToNat ip : ℤ) : ℚ) + (digitsToNat fp : ℚ) / ((10 : ℚ) ^ fp.length))
      else none
  match build with
  | none => none
  | some v => some (if p.1 then -v else v)

/-- strings.SplitN(line, ",", 2): split at the first comma only. -/
def splitNComma2 (cs : List Char) : List (List Char) :=
  let before := cs.takeWhile (fun c => c ≠ ',')
  match cs.dropWhile (fun c => c ≠ ',') with
  | [] => [before]
  | _ :: after => [before, after]

/-- strings.Split(s, "\n"). -/
def splitNL : List Char → List (List Char)
  | [] => [[]]
  | c :: r =>
    let rest := splitNL r
    if c = '\n' then [] :: rest
    else
      match rest with
      | h :: t => (c :: h) :: t
      | [] => [[c]]

/-- The error cases of ParseNvidiaSmi (gpu.go:25-61). -/
inductive NvErr where
  | emptyOutput   -- "empty nvidia-smi output"
  | badFormat     -- "unexpected nvidia-smi format"
  | badUtil       -- "parse utilization"
  | badTemp       -- "parse temperature"
  | noData        -- "no GPU data parsed"
  deriving DecidableEq, Repr

instance : DecidableEq (Except NvErr (List GPUMetric)) := fun a b => by
  rcases a with ea | va <;> rcases b with eb | vb
  · exact decidable_of_iff (ea = eb) (by simp)
  · exact Decidable.isFalse (by simp)
  · exact Decidable.isFalse (by simp)
  · exact decidable_of_iff (va = vb) (by simp)

/-- The per-line loop of ParseNvidiaSmi (gpu.go:33-54): trim, skip blank
lines, SplitN on the first comma (fewer than two parts is a format error),
parse utilization then temperature. -/
def parseLines : List (List Char) → Except NvErr (List GPUMetric)
  | [] => Except.ok []
  | line :: rest =>
    let t := trimChars line
    if t = [] then parseLines rest
    else
      match splitNComma2 t with
      | [a, b] =>
        match goParseFloat (String.mk (trimChars a)) with
        | none => Except.error NvErr.badUtil
        | some u =>
          match goParseFloat (String.mk (trimChars b)) with
          | none => Except.error NvErr.badTemp
          | some tv =>
            match parseLines rest with
            | Except.error e => Except.error e
            | Except.ok gpus => Except.ok (⟨u, tv⟩ :: gpus)
      | _ => Except.error NvErr.badFormat

/-- ParseNvidiaSmi (gpu.go:25-61): trim the whole output, reject empty,
split into lines, parse each, and reject when nothing was parsed. -/
def ParseNvidiaSmi (output : String) : Except NvErr (List GPUMetric) :=
  let out := trimChars output.data
  if out = [] then Except.error NvErr.emptyOutput
  else
    match parseLines (splitNL out) with
    | Except.error e => Except.error e
    | Except.ok [] => Except.error NvErr.noData
    | Except.ok gpus => Except.ok gpus

/-- C8: on "98, 73\n45, 60\n" the parser yields exactly the two records
(98, 73) then (45, 60); on the empty string it errors (empty output); on
"abc, 73" it errors (unparseable utilization). -/
theorem C8_parse_nvidia_smi :
    ParseNvidiaSmi "98, 73\n45, 60\n" =
      Except.ok [⟨98, 73⟩, ⟨45, 60⟩] ∧
    ParseNvidiaSmi "" = Except.error NvErr.emptyOutput ∧
    ParseNvidiaSmi "abc, 73" = Except.error NvErr.badUtil := by
  refine ⟨by decide, by decide, by decide⟩

end VastProxy
